import Mathlib

/-!
Shallow embedding of the cache / policy / step-machine core of the
`image-creator` program (Python), together with theorems settling the
frozen claims about it.

Conventions of the embedding:
* machine integers, byte sizes and UTC timestamps are modelled as `Int`
  (seconds since the epoch for timestamps); no overflow is relevant here;
* Python `None` for an optional integer field is `Option Int`'s `none`;
  Python truthiness of such a field (`if self.max_size:`) is
  "`some v` with `v ≠ 0`";
* fallible Python code (raising) is modelled with `Except PyErr`;
* network and filesystem effects are oracles passed explicitly
  (`Except Unit String` for a remote digest fetch, `FS` for files on disk);
* Python attribute lookup on a field a class does not define raises
  `AttributeError`; such lookups are modelled by accessor functions
  returning `Except.error (PyErr.attributeError _)`.
-/

namespace ImageCreator

/-- Python exceptions relevant to the embedded code. -/
inductive PyErr where
  | attributeError (attr : String)
  | valueError (msg : String)
  | keyError (key : String)
  | osError (msg : String)
  deriving Repr, DecidableEq

/-- The five eviction disciplines (`cache/policy.py`, class `Eviction`,
whose dataclass fields are the five strings). -/
inductive Eviction where
  | oldest
  | newest
  | largest
  | smallest
  | lru
  deriving Repr, DecidableEq

/-- The string value each `Eviction` member holds in the source. -/
def Eviction.toStr : Eviction → String
  | .oldest => "oldest"
  | .newest => "newest"
  | .largest => "largest"
  | .smallest => "smallest"
  | .lru => "lru"

/-- `Eviction.get_all()` membership: parse a string into a discipline. -/
def Eviction.ofStr (s : String) : Option Eviction :=
  if s = "oldest" then some .oldest
  else if s = "newest" then some .newest
  else if s = "largest" then some .largest
  else if s = "smallest" then some .smallest
  else if s = "lru" then some .lru
  else none

/-- `Eviction.default()` is `lru`. -/
def Eviction.defaultDiscipline : Eviction := .lru

/-- In-memory view of a `CacheEntry` (`cache/manager.py`).  `fpath` is the
entry's path (absolute for entries on disk, cache-relative for candidates)
and doubles as the object's identity, since the Python code never mutates
it after construction (`introduce` absolutizes a candidate's path exactly
once).  `seen` models the dynamic `__seen` attribute that
`get_eviction_for` sets via `setattr`; `getattr(entry, "__seen", False)`
defaults it to `False`, hence the `false` default here. -/
structure CacheEntry where
  fpath : String
  size : Int
  added_on : Int
  last_checked_on : Int
  last_used_on : Int
  nb_used : Int
  kind : String
  source : String
  digest : String
  check_after : Option Int := none
  seen : Bool := false
  deriving Repr, DecidableEq

/-- The sort key a discipline uses (first component of the table in
`sort_for`). -/
inductive SortKey where
  | added_on
  | size
  | last_used_on
  deriving Repr, DecidableEq

/-- The `(key, reverse)` table of `sort_for` (`cache/manager.py`). -/
def sortSpec : Eviction → SortKey × Bool
  | .oldest => (.added_on, false)
  | .newest => (.added_on, true)
  | .largest => (.size, false)
  | .smallest => (.size, true)
  | .lru => (.last_used_on, true)

/-- `getattr(item, key)` for the three sort keys. -/
def CacheEntry.keyVal (e : CacheEntry) : SortKey → Int
  | .added_on => e.added_on
  | .size => e.size
  | .last_used_on => e.last_used_on

/-- Stable insertion into a sorted list: the new element goes before the
first element it compares `le` to, hence after all elements it ties
with that came earlier. -/
def orderedInsertB {α : Type} (le : α → α → Bool) (a : α) : List α → List α
  | [] => [a]
  | b :: l => if le a b then a :: b :: l else b :: orderedInsertB le a l

/-- Stable sort under a total preorder.  A stable sort is unique given
the preorder, so this coincides with CPython's stable `sorted`. -/
def insertionSortB {α : Type} (le : α → α → Bool) : List α → List α
  | [] => []
  | a :: l => orderedInsertB le a (insertionSortB le l)

/-- The boolean `le` that `sorted(key=…, reverse=…)` induces for a
discipline: compare the key ascending, or descending when `reverse`. -/
def sortLeB (eviction : Eviction) (a b : CacheEntry) : Bool :=
  let spec := sortSpec eviction
  if spec.2 then decide (b.keyVal spec.1 ≤ a.keyVal spec.1)
  else decide (a.keyVal spec.1 ≤ b.keyVal spec.1)

/-- `sort_for(eviction, iterable)`: Python's stable `sorted` with the
given key and reverse flag. -/
def sort_for (eviction : Eviction) (l : List CacheEntry) : List CacheEntry :=
  insertionSortB (sortLeB eviction) l

theorem orderedInsertB_perm {α : Type} (le : α → α → Bool) (a : α)
    (l : List α) : (orderedInsertB le a l).Perm (a :: l) := by
  induction l with
  | nil => exact List.Perm.refl _
  | cons b t ih =>
    unfold orderedInsertB
    by_cases h : le a b
    · simp [h]
    · simp only [h, if_neg, Bool.false_eq_true, if_false]
      exact (ih.cons b).trans (List.Perm.swap a b t)

theorem insertionSortB_perm {α : Type} (le : α → α → Bool) (l : List α) :
    (insertionSortB le l).Perm l := by
  induction l with
  | nil => exact List.Perm.refl _
  | cons a t ih =>
    exact (orderedInsertB_perm le a (insertionSortB le t)).trans (ih.cons a)

theorem orderedInsertB_pairwise {α : Type} (le : α → α → Bool)
    (htot : ∀ a b, le a b = true ∨ le b a = true)
    (htrans : ∀ a b c, le a b = true → le b c = true → le a c = true)
    (a : α) (l : List α) (hl : l.Pairwise (le · · = true)) :
    (orderedInsertB le a l).Pairwise (le · · = true) := by
  induction l with
  | nil => simp [orderedInsertB]
  | cons b t ih =>
    rw [List.pairwise_cons] at hl
    unfold orderedInsertB
    by_cases h : le a b
    · simp only [h, if_pos]
      rw [List.pairwise_cons]
      refine ⟨?_, List.pairwise_cons.mpr hl⟩
      intro x hx
      rcases List.mem_cons.mp hx with hx | hx
      · exact hx ▸ h
      · exact htrans a b x h (hl.1 x hx)
    · simp only [h, Bool.false_eq_true, if_false]
      rw [List.pairwise_cons]
      constructor
      · intro x hx
        have hmem := (orderedInsertB_perm le a t).mem_iff.mp hx
        rcases List.mem_cons.mp hmem with hx' | hx'
        · rcases htot a b with hab | hba
          · exact absurd hab h
          · rw [hx']
            exact hba
        · exact hl.1 x hx'
      · exact ih hl.2

theorem insertionSortB_pairwise {α : Type} (le : α → α → Bool)
    (htot : ∀ a b, le a b = true ∨ le b a = true)
    (htrans : ∀ a b c, le a b = true → le b c = true → le a c = true)
    (l : List α) : (insertionSortB le l).Pairwise (le · · = true) := by
  induction l with
  | nil => simp [insertionSortB]
  | cons a t ih => exact orderedInsertB_pairwise le htot htrans a _ ih

/-- The ordering each discipline is documented to produce (spec §4.4):
`oldest` ascending `added_on`, `newest` descending `added_on`, `largest`
ascending `size`, `smallest` descending `size`, `lru` descending
`last_used_on`.  Stated from the spec's words, to be compared with
`sort_for`. -/
def documentedOrder (e : Eviction) (a b : CacheEntry) : Prop :=
  match e with
  | .oldest => a.added_on ≤ b.added_on
  | .newest => b.added_on ≤ a.added_on
  | .largest => a.size ≤ b.size
  | .smallest => b.size ≤ a.size
  | .lru => b.last_used_on ≤ a.last_used_on

/-- C9: `sort_for` permutes its input and orders it as documented, for
every discipline. -/
theorem sort_for_orders_as_documented (e : Eviction) (l : List CacheEntry) :
    (sort_for e l).Perm l ∧ (sort_for e l).Pairwise (documentedOrder e) := by
  constructor
  · exact insertionSortB_perm (sortLeB e) l
  · have h := insertionSortB_pairwise (sortLeB e)
      (by
        intro a b
        cases e <;> simp [sortLeB, sortSpec] <;> omega)
      (by
        intro a b c hab hbc
        cases e <;> simp_all [sortLeB, sortSpec] <;> omega)
      l
    refine List.Pairwise.imp ?_ h
    intro a b hab
    cases e <;> simp_all [sortLeB, sortSpec, documentedOrder, CacheEntry.keyVal]

/-! ## Digest retrieval (`utils/download.py`, `get_digest`) -/

/-- `is_http(url)` (`utils/misc.py`): `re.match(r"https?://", url)`
truthiness, i.e. the URL starts with `http://` or `https://`. -/
def is_http (url : String) : Bool :=
  "http://".data.isPrefixOf url.data || "https://".data.isPrefixOf url.data

/-- The headers of one HTTP response, restricted to the four header names
`get_digest` reads.  `none` is an absent header; HTTP header values are
newline-free. -/
structure Headers where
  digestHeader : Option String := none
  etag : Option String := none
  contentLength : Option String := none
  lastModified : Option String := none
  deriving Repr, DecidableEq

/-- Python truthiness of `headers.get(name)`: present and non-empty. -/
def truthyStr : Option String → Bool
  | none => false
  | some s => !s.isEmpty

/-- `re.sub(r'^"(.+)"$', r"\1", etag)`: strip one pair of surrounding
double quotes when at least one character stands between them (`.+` does
not match a newline, but header values contain none). -/
def stripQuotes (s : String) : String :=
  if s.length ≥ 3 ∧ s.front = '"' ∧ s.back = '"' then (s.drop 1).dropRight 1 else s

/-- `get_digest(url, etag_only)` (`utils/download.py`), with the network
modelled by the redirect-chain headers (`resp.history`) and the final
response headers.  The Python return annotation is `str`, but the
function can in fact return `None`: the result is therefore an
`Option String`, `none` standing for Python's `None`. -/
def get_digest (url : String) (history : List Headers) (final : Headers)
    (etag_only : Bool) : Option String :=
  -- work only on http(s) URLs
  if ¬ is_http url then some ""
  else
    -- first redirect response carrying a (truthy) `Digest` header wins
    match history.find? (fun h => truthyStr h.digestHeader) with
    | some h => h.digestHeader
    | none =>
      let etag0 := final.etag
      let etag := if truthyStr etag0 then (etag0.map stripQuotes) else etag0
      -- `if etag or etag_only: return etag` — note this returns the raw
      -- `etag`, which is None when the header is absent
      if truthyStr etag || etag_only then etag
      else
        -- `if not length or not modified: return ""`
        match final.contentLength, final.lastModified with
        | some length, some modified =>
          if length.isEmpty || modified.isEmpty then some ""
          else some (length ++ "|" ++ modified)
        | _, _ => some ""

/-- C7: with `etag_only` set and neither a `Digest` header on the redirect
chain nor an `ETag` on the final response, `get_digest` returns Python
`None` (`none`), not the empty string its docstring and the claim
promise. -/
theorem get_digest_etag_only_returns_none :
    get_digest "http://example.org/file.bin" [] {} true = none ∧
    get_digest "http://example.org/file.bin" [] {} true ≠ some "" := by
  constructor
  · decide
  · decide

/-! ## Outdacy checking (`cache/manager.py`, `CacheEntry.is_outdated_if`) -/

/-- Result of one `is_outdated_if` call: the returned boolean, the entry
state after the call (the method can update `last_checked_on`), and
whether a remote digest request was issued. -/
structure OutdacyOutcome where
  outdated : Bool
  entry : CacheEntry
  remote_queried : Bool
  deriving Repr, DecidableEq

/-- `CacheEntry.mark_checked`: set `last_checked_on` to the current
instant (the xattr write persists the same value and is not modelled
separately). -/
def CacheEntry.mark_checked (e : CacheEntry) (now : Int) : CacheEntry :=
  { e with last_checked_on := now }

/-- Python truthiness of an `int | None` value: non-`None` and non-zero. -/
def truthyInt : Option Int → Bool
  | none => false
  | some v => decide (v ≠ 0)

/-- `CacheEntry.is_outdated_if(checked_before)`.  `now` is
`datetime.datetime.utcnow()`; `remote` is the oracle for
`get_remote_digest()` (`Except.error` = the retrieval raised);
`checked_before = none` is Python `None`, replaced by the entry's
`check_after`. -/
def CacheEntry.is_outdated_if (e : CacheEntry) (now : Int)
    (remote : Except Unit String) (checked_before : Option Int) :
    OutdacyOutcome :=
  let cb := match checked_before with
    | none => e.check_after
    | some v => some v
  -- `if checked_before and self.last_checked_on + timedelta(seconds=checked_before)
  --     >= datetime.datetime.utcnow(): return False`
  if truthyInt cb ∧ e.last_checked_on + cb.getD 0 ≥ now then
    ⟨false, e, false⟩
  else if e.digest = "" then
    -- `if not self.digest: return True`
    ⟨true, e, false⟩
  else
    match remote with
    | .error _ =>
      -- `except Exception: ... return False`
      ⟨false, e, true⟩
    | .ok remoteDigest =>
      -- `outdated = not remote or remote != self.digest`
      let outdated := remoteDigest.isEmpty || decide (remoteDigest ≠ e.digest)
      if outdated then ⟨true, e, true⟩
      else ⟨false, e.mark_checked now, true⟩

/-- A concrete entry used in counterexamples and witnesses. -/
def sampleEntry : CacheEntry :=
  { fpath := "/cache/files/http/host/x.bin"
    size := 1000
    added_on := 50
    last_checked_on := 100
    last_used_on := 60
    nb_used := 1
    kind := "file"
    source := "http://host/x.bin"
    digest := "abc" }

/-- C3 counterexample: with `checked_before = 0` (the value
`is_outdated` passes to force a check) the guard
`last_checked_on + checked_before ≥ now` holds, yet the code issues the
remote request — `0` is falsy, so the early return is skipped — and
returns `True` when the remote digest differs.  This refutes the claim's
unconditional "returns false without issuing any remote request when
`last_checked_on + checked_before ≥ now`". -/
theorem is_outdated_if_zero_checked_before_queries :
    sampleEntry.last_checked_on + 0 ≥ 100 ∧
    (sampleEntry.is_outdated_if 100 (.ok "def") (some 0)).outdated = true ∧
    (sampleEntry.is_outdated_if 100 (.ok "def") (some 0)).remote_queried = true := by
  refine ⟨by norm_num [sampleEntry], ?_, ?_⟩ <;> rfl

/-- C3 (amended): `is_outdated_if` returns false without any remote
request when `checked_before` is non-zero and
`last_checked_on + checked_before ≥ now`; when a remote check is made and
the retrieval raises, the result is false and the entry is unchanged;
when the retrieved digest equals the stored one, `last_checked_on` is set
to `now`; when it differs, the entry is left unchanged. -/
theorem is_outdated_if_spec (e : CacheEntry) (now : Int) (v : Int)
    (remote : Except Unit String) (r : String) :
    (v ≠ 0 → e.last_checked_on + v ≥ now →
      e.is_outdated_if now remote (some v) = ⟨false, e, false⟩) ∧
    (¬ (truthyInt e.check_after ∧ e.last_checked_on + e.check_after.getD 0 ≥ now) →
      e.digest ≠ "" →
      e.is_outdated_if now (.error ()) none = ⟨false, e, true⟩) ∧
    (¬ (truthyInt e.check_after ∧ e.last_checked_on + e.check_after.getD 0 ≥ now) →
      e.digest ≠ "" → r = e.digest →
      e.is_outdated_if now (.ok r) none = ⟨false, e.mark_checked now, true⟩) ∧
    (¬ (truthyInt e.check_after ∧ e.last_checked_on + e.check_after.getD 0 ≥ now) →
      e.digest ≠ "" → r ≠ e.digest →
      e.is_outdated_if now (.ok r) none = ⟨true, e, true⟩) := by
  refine ⟨?_, ?_, ?_, ?_⟩
  · intro hv hle
    simp [CacheEntry.is_outdated_if, truthyInt, hv, hle]
  · intro hmiss hdig
    simp [CacheEntry.is_outdated_if, hmiss, hdig]
  · intro hmiss hdig hr
    have hne : ¬ r.isEmpty := by
      subst hr
      simpa [String.isEmpty_iff] using hdig
    simp [CacheEntry.is_outdated_if, hmiss, hdig, hr, hne, String.isEmpty_iff]
  · intro hmiss hdig hr
    by_cases hre : r.isEmpty <;>
      simp [CacheEntry.is_outdated_if, hmiss, hdig, hr, hre]

/-- C3 witness: the amended theorem applied at concrete inputs. -/
theorem is_outdated_if_spec_witness :
    sampleEntry.is_outdated_if 130 (.ok "zzz") (some 3600) = ⟨false, sampleEntry, false⟩ ∧
    sampleEntry.is_outdated_if 130 (.error ()) none = ⟨false, sampleEntry, true⟩ ∧
    sampleEntry.is_outdated_if 130 (.ok "abc") none =
      ⟨false, sampleEntry.mark_checked 130, true⟩ ∧
    sampleEntry.is_outdated_if 130 (.ok "def") none = ⟨true, sampleEntry, true⟩ :=
  ⟨(is_outdated_if_spec sampleEntry 130 3600 (.ok "zzz") "x").1 (by decide) (by decide),
   (is_outdated_if_spec sampleEntry 130 0 (.error ()) "x").2.1 (by decide) (by decide),
   (is_outdated_if_spec sampleEntry 130 0 (.ok "abc") "abc").2.2.1 (by decide) (by decide)
     (by decide),
   (is_outdated_if_spec sampleEntry 130 0 (.ok "def") "def").2.2.2 (by decide) (by decide)
     (by decide)⟩

/-! ## Free-space checking (`steps/sizes.py`, `ComputeSizes.check_physical_space`) -/

/-- The three paths whose volumes are examined (output target, build
directory, cache directory). -/
inductive SpacePath where
  | target
  | build_dir
  | cache_dir
  deriving Repr, DecidableEq

/-- Input of `check_physical_space`, after `get_needs` has produced the
`needs` dict: the three byte needs, each path's `stat().st_dev` volume
id, whether a cache directory is configured
(`payload["options"].cache_dir` truthiness), and `get_freespace` per
path. -/
structure SpaceCheckInput where
  needs_target : Int
  needs_build_dir : Int
  needs_cache_dir : Int
  dev_target : Nat
  dev_build_dir : Nat
  dev_cache_dir : Nat
  cache_dir_set : Bool
  free : SpacePath → Int

/-- One `volumes_map` entry: volume id, its recorded needs, the paths on
it (insertion-ordered, as a Python dict). -/
structure VolumeNeeds where
  dev : Nat
  needs : Int
  paths : List SpacePath
  deriving Repr, DecidableEq

/-- `update_map(volume, needs, path)` — including the source's slip: for
an already-present volume the line `volumes_map[volume]["needs"] + needs`
computes the sum and discards it (no assignment), so only the paths list
grows. -/
def update_map (m : List VolumeNeeds) (volume : Nat) (needs : Int)
    (path : SpacePath) : List VolumeNeeds :=
  if m.any (fun v => v.dev == volume) then
    m.map fun v =>
      if v.dev == volume then { v with paths := v.paths ++ [path] } else v
  else
    m ++ [⟨volume, needs, [path]⟩]

/-- `check_physical_space`: build the volume map from target, build dir
and (when configured) cache dir, then fail with exit code 1 on the first
volume whose recorded needs exceed the free space at its first path. -/
def check_physical_space (inp : SpaceCheckInput) : Int :=
  let m := update_map [] inp.dev_target inp.needs_target .target
  let m := update_map m inp.dev_build_dir inp.needs_build_dir .build_dir
  let m :=
    if inp.cache_dir_set then
      update_map m inp.dev_cache_dir inp.needs_cache_dir .cache_dir
    else m
  if m.any (fun v => v.needs > inp.free (v.paths.headD .target)) then 1 else 0

/-- A same-volume configuration where the three needs together exceed the
free space but the target's need alone does not. -/
def sampleSpaceInput : SpaceCheckInput :=
  { needs_target := 50
    needs_build_dir := 50
    needs_cache_dir := 50
    dev_target := 7
    dev_build_dir := 7
    dev_cache_dir := 7
    cache_dir_set := true
    free := fun _ => 100 }

/-- C6: with target, build dir and cache dir on one volume, free space
100 and needs 50+50+50 = 150 > 100, the claim requires exit code 1, but
`check_physical_space` returns 0 — `update_map` never accumulates the
second and third needs (`needs + needs` without assignment), so only the
target's 50 is compared with the free space. -/
theorem check_physical_space_misses_cumulative_needs :
    check_physical_space sampleSpaceInput = 0 ∧
    sampleSpaceInput.free .target <
      sampleSpaceInput.needs_target + sampleSpaceInput.needs_build_dir +
        sampleSpaceInput.needs_cache_dir := by
  constructor
  · rfl
  · decide

/-! ## Step machine halt (`steps/machine.py`, `StepMachine.halt`) -/

/-- The runtime facts `halt` consults: the 0-based cursor reached by the
run (`self._current`), the success flag and options in the payload,
whether the output file exists, and oracles telling which step cleanups
and whether the unlink raise. -/
structure HaltState where
  current : Nat
  succeeded : Bool
  keep_failed : Bool
  output_path : Option String
  path_exists : String → Bool
  cleanup_throws : Nat → Bool
  unlink_throws : Bool

/-- `step.cleanup(payload)` for the freshly constructed step at `index`,
as an effect that may raise. -/
def stepCleanup (st : HaltState) (index : Nat) : Except PyErr Unit :=
  if st.cleanup_throws index then .error (.osError "cleanup failed") else .ok ()

/-- `range(self._current, 0, -1)`: the indices `n, n-1, …, 1`. -/
def downRange : Nat → List Nat
  | 0 => []
  | n + 1 => (n + 1) :: downRange n

/-- The cleanup walk of `halt`: each `step.cleanup` call sits in a
`try/except` that only logs a dot, so a raising cleanup is swallowed and
the walk continues.  Returns the indices whose cleanup was invoked, in
call order. -/
def runCleanups (st : HaltState) : Nat → Except PyErr (List Nat)
  | 0 => .ok []
  | n + 1 =>
    -- `try: step.cleanup(payload=...) except Exception: add_dot(NOK)
    --  else: add_dot(OK)` — either way the walk continues
    let _dot : Bool := match stepCleanup st (n + 1) with
      | .error _ => false
      | .ok _ => true
    match runCleanups st n with
    | .error e => .error e
    | .ok rest => .ok ((n + 1) :: rest)

/-- The deletion condition of `halt`:
`not payload["succeeded"] and not options.keep_failed and
options.output_path and options.output_path.exists()`. -/
def shouldUnlink (st : HaltState) : Bool :=
  !st.succeeded && !st.keep_failed &&
    (match st.output_path with
     | some p => st.path_exists p
     | none => false)

/-- `StepMachine.halt()`: run the reverse cleanup walk, then delete the
output image unless the run succeeded or `keep_failed` is set (and only
if an output path is set and exists); the unlink itself is also wrapped
in `try/except`.  Returns the cleanup call order and whether the unlink
was invoked. -/
def halt (st : HaltState) : Except PyErr (List Nat × Bool) :=
  match runCleanups st st.current with
  | .error e => .error e
  | .ok calls =>
    if shouldUnlink st then
      -- `try: output_path.unlink(missing_ok=True) except Exception:
      --  add_dot(NOK) else: add_dot(OK)` — swallowed either way
      let _dot : Bool := if st.unlink_throws then false else true
      .ok (calls, true)
    else
      .ok (calls, false)

theorem runCleanups_eq (st : HaltState) :
    ∀ n, runCleanups st n = .ok (downRange n) := by
  intro n
  induction n with
  | zero => rfl
  | succ k ih => simp [runCleanups, downRange, ih]

/-- C8: after a run whose cursor reached `n`, `halt` terminates normally
whatever the cleanups do (no cleanup exception propagates), invokes
cleanup exactly once per index from `n` down to `1` in that order, and
invokes the output-file unlink iff the run did not succeed, `keep_failed`
is unset, and the output path is set and exists. -/
theorem halt_cleans_up_in_reverse (st : HaltState) :
    halt st = .ok (((List.range st.current).map (· + 1)).reverse, shouldUnlink st) ∧
    (shouldUnlink st = true ↔
      st.succeeded = false ∧ st.keep_failed = false ∧
        ∃ p, st.output_path = some p ∧ st.path_exists p = true) := by
  have hdr : ∀ n, downRange n = ((List.range n).map (· + 1)).reverse := by
    intro n
    induction n with
    | zero => rfl
    | succ k ih => simp [downRange, List.range_succ, ih]
  constructor
  · unfold halt
    rw [runCleanups_eq st st.current, hdr]
    by_cases hu : shouldUnlink st <;> simp [hu]
  · unfold shouldUnlink
    cases hp : st.output_path <;> simp [and_assoc]

/-! ## Policy model (`cache/policy.py`)

`CommonParamsMixin` declares exactly the dataclass fields `max_size`,
`max_age`, `max_num` and `eviction`; `SubPolicyFilter` adds `pattern` and
`ignore`; `SubPolicy` adds `enabled` and `filters`; `MainPolicy` adds
`oci_images`, `files` and `enabled`.  No class in the module declares
`check_after`, `keep_identified_versions`, `max_age_seconds` or
`max_size_bytes`, which matters for the eviction engine below.

The constructors model `__post_init__` for `int | None` bound inputs;
human-readable string inputs go through the external `humanfriendly`
parser and are outside the model. -/

/-- A filter of a subpolicy.  `matches` models the truthiness of
`re.match(self.pattern, value, re.IGNORECASE)` (the `re` engine is
external); `pattern` is kept for the eviction reason strings. -/
structure SubPolicyFilter where
  pattern : String
  ignore : Bool
  max_size : Option Int
  max_age : Option Int
  max_num : Option Int
  eviction : Eviction
  matchFn : String → Bool

/-- A per-kind subpolicy (`SubPolicy` and its field-less subclasses
`OCIImagePolicy` / `FilesPolicy`). -/
structure SubPolicy where
  enabled : Bool
  max_size : Option Int
  max_age : Option Int
  max_num : Option Int
  eviction : Eviction
  filters : List SubPolicyFilter

/-- The main policy. `oci_images` / `files` are annotated
`... | None` in the source, hence the `Option`. -/
structure MainPolicy where
  enabled : Bool
  max_size : Option Int
  max_age : Option Int
  max_num : Option Int
  eviction : Eviction
  oci_images : Option SubPolicy
  files : Option SubPolicy

/-- `parse_max_size` / `parse_max_age` on an `int | None` input: positive
ints kept, `0` normalized to `None`, negative ints rejected. -/
def parse_bound (clsName fieldName : String) : Option Int → Except PyErr (Option Int)
  | none => .ok none
  | some v =>
    if v > 0 then .ok (some v)
    else if v = 0 then .ok none
    else .error (.valueError
      ("Invalid negative value `" ++ toString v ++ "` for " ++ clsName ++ "." ++ fieldName))

/-- `__post_init__`'s eviction handling: a falsy (empty) value is replaced
by `Eviction.default()`, then `enforce_eviction` rejects anything outside
the five disciplines. -/
def resolve_eviction (clsName : String) (ev : String) : Except PyErr Eviction :=
  let ev := if ev.isEmpty then Eviction.defaultDiscipline.toStr else ev
  match Eviction.ofStr ev with
  | some e => .ok e
  | none => .error (.valueError
      ("Unexpected value `" ++ ev ++ "` for " ++ clsName ++ ".eviction." ++
        "Accepts: oldest, newest, largest, smallest, lru"))

/-- The bound comparison of `SubPolicy.check` / `MainPolicy.check`:
`getattr(child, value) and getattr(parent, value) and
getattr(child, value) > getattr(parent, value)` (truthiness of an
`int | None`, then strict comparison). -/
def boundExceeds (child parent : Option Int) : Bool :=
  match child, parent with
  | some c, some p => decide (c ≠ 0) && decide (p ≠ 0) && decide (c > p)
  | _, _ => false

/-- The "exceeds" `ValueError` message of the two `check` methods. -/
def exceedsMsg (childDesc fieldName : String) (cv : Int) (parentDesc : String)
    (pv : Int) : String :=
  (childDesc ++ "." ++ fieldName ++ " (" ++ toString cv ++ ") ") ++
    ("exceeds" ++ (" " ++ parentDesc ++ "." ++ fieldName ++ " (" ++ toString pv ++ ")"))

/-- One field of the `for value in self.checkable_fields` loop. -/
def checkFieldAgainst (childDesc parentDesc fieldName : String)
    (cv pv : Option Int) : Except PyErr Unit :=
  if boundExceeds cv pv then
    .error (.valueError (exceedsMsg childDesc fieldName (cv.getD 0) parentDesc (pv.getD 0)))
  else .ok ()

/-- One filter of `SubPolicy.check`: the three checkable fields in
declaration order (`max_size`, `max_age`, `max_num`); the first violating
field raises. -/
def checkOneFilter (selfDesc : String) (idx : Nat) (f : SubPolicyFilter)
    (pms pma pmn : Option Int) : Except PyErr Unit :=
  let childDesc := "SubPolicyFilter[" ++ toString idx ++ "]"
  match checkFieldAgainst childDesc selfDesc "max_size" f.max_size pms with
  | .error e => .error e
  | .ok _ =>
    match checkFieldAgainst childDesc selfDesc "max_age" f.max_age pma with
    | .error e => .error e
    | .ok _ => checkFieldAgainst childDesc selfDesc "max_num" f.max_num pmn

/-- `SubPolicy.check`: `for idx, filter_ in enumerate(self.filters)`. -/
def checkFilters (selfDesc : String) (pms pma pmn : Option Int) :
    Nat → List SubPolicyFilter → Except PyErr Unit
  | _, [] => .ok ()
  | idx, f :: rest =>
    match checkOneFilter selfDesc idx f pms pma pmn with
    | .error e => .error e
    | .ok _ => checkFilters selfDesc pms pma pmn (idx + 1) rest

/-- `SubPolicyFilter(...)` construction (`@dataclass` + `__post_init__`):
eviction default and validation, then `parse_max_size`, then
`parse_max_age`; `max_num` is not parsed. -/
def mkSubPolicyFilter (pattern : String) (ignore : Bool)
    (max_size max_age max_num : Option Int) (eviction : String)
    (matchesFn : String → Bool) : Except PyErr SubPolicyFilter := do
  let ev ← resolve_eviction "SubPolicyFilter" eviction
  let ms ← parse_bound "SubPolicyFilter" "max_size" max_size
  let ma ← parse_bound "SubPolicyFilter" "max_age" max_age
  .ok { pattern := pattern, ignore := ignore, max_size := ms, max_age := ma,
        max_num := max_num, eviction := ev, matchFn := matchesFn }

/-- `SubPolicy(...)` (or `OCIImagePolicy` / `FilesPolicy`) construction:
`CommonParamsMixin.__post_init__` then `self.check()` against the
already-constructed filters.  `clsName` is `type(self).__name__`. -/
def mkSubPolicy (clsName : String) (enabled : Bool)
    (max_size max_age max_num : Option Int) (eviction : String)
    (filters : List SubPolicyFilter) : Except PyErr SubPolicy :=
  match resolve_eviction clsName eviction with
  | .error e => .error e
  | .ok ev =>
    match parse_bound clsName "max_size" max_size with
    | .error e => .error e
    | .ok ms =>
      match parse_bound clsName "max_age" max_age with
      | .error e => .error e
      | .ok ma =>
        match checkFilters clsName ms ma max_num 0 filters with
        | .error e => .error e
        | .ok _ => .ok { enabled := enabled, max_size := ms, max_age := ma,
                         max_num := max_num, eviction := ev, filters := filters }

/-- One subpolicy of `MainPolicy.check`: `getattr(sub_policy, value)` on a
`None` subpolicy raises `AttributeError` (first field looked up is
`max_size`); otherwise the three fields are compared as for filters. -/
def checkSub (selfDesc subClsName : String) (sub : Option SubPolicy)
    (pms pma pmn : Option Int) : Except PyErr Unit :=
  match sub with
  | none => .error (.attributeError "max_size")
  | some s =>
    match checkFieldAgainst subClsName selfDesc "max_size" s.max_size pms with
    | .error e => .error e
    | .ok _ =>
      match checkFieldAgainst subClsName selfDesc "max_age" s.max_age pma with
      | .error e => .error e
      | .ok _ => checkFieldAgainst subClsName selfDesc "max_num" s.max_num pmn

/-- `MainPolicy(...)` construction with explicitly supplied subpolicies
(as `MainPolicy.read_from` builds them): `CommonParamsMixin.__post_init__`
then `self.check()` over `sub_names() = [oci_images, files]` in field
order. -/
def mkMainPolicy (enabled : Bool) (max_size max_age max_num : Option Int)
    (eviction : String) (oci_images files : Option SubPolicy) :
    Except PyErr MainPolicy :=
  match resolve_eviction "MainPolicy" eviction with
  | .error e => .error e
  | .ok ev =>
    match parse_bound "MainPolicy" "max_size" max_size with
    | .error e => .error e
    | .ok ms =>
      match parse_bound "MainPolicy" "max_age" max_age with
      | .error e => .error e
      | .ok ma =>
        match checkSub "MainPolicy" "OCIImagePolicy" oci_images ms ma max_num with
        | .error e => .error e
        | .ok _ =>
          match checkSub "MainPolicy" "FilesPolicy" files ms ma max_num with
          | .error e => .error e
          | .ok _ => .ok { enabled := enabled, max_size := ms, max_age := ma,
                           max_num := max_num, eviction := ev,
                           oci_images := oci_images, files := files }

/-! ### C5: the hierarchical "exceeds" check -/

/-- A bound input already in normalized form: unset, or a positive
number of bytes/seconds/entries ("0 means unset" is the normalization
`parse_bound` performs). -/
def validBound (b : Option Int) : Prop := ∀ v ∈ b, 0 < v

/-- A well-formed eviction input: empty (defaulted) or one of the five
disciplines. -/
def validEviction (ev : String) : Prop := ev = "" ∨ (Eviction.ofStr ev).isSome

/-- The claim's violation notion: the child's bound is set and strictly
exceeds the parent's set bound. -/
def strictlyExceedsSet (child parent : Option Int) : Prop :=
  ∃ c p, child = some c ∧ parent = some p ∧ p < c

/-- The claim's "a ValueError whose message contains 'exceeds'". -/
def containsExceeds (msg : String) : Prop :=
  ∃ pre post, msg = pre ++ ("exceeds" ++ post)

theorem parse_bound_valid (c f : String) (b : Option Int) (h : validBound b) :
    parse_bound c f b = .ok b := by
  cases b with
  | none => rfl
  | some v =>
    have hv : 0 < v := h v rfl
    simp [parse_bound, hv]

theorem resolve_eviction_valid (c : String) (ev : String) (h : validEviction ev) :
    ∃ e, resolve_eviction c ev = .ok e := by
  rcases h with h | h
  · subst h
    exact ⟨.lru, rfl⟩
  · unfold resolve_eviction
    cases hov : Eviction.ofStr ev with
    | none => rw [hov] at h; simp at h
    | some e =>
      refine ⟨e, ?_⟩
      have hne : ¬ ev.isEmpty := by
        intro habs
        rw [String.isEmpty_iff] at habs
        subst habs
        simp [Eviction.ofStr] at hov
      simp [hne, hov]

theorem boundExceeds_iff (c p : Option Int) (hc : validBound c) (hp : validBound p) :
    boundExceeds c p = true ↔ strictlyExceedsSet c p := by
  cases c with
  | none => simp [boundExceeds, strictlyExceedsSet]
  | some cv =>
    cases p with
    | none => simp [boundExceeds, strictlyExceedsSet]
    | some pv =>
      have h1 : 0 < cv := hc cv rfl
      have h2 : 0 < pv := hp pv rfl
      simp [boundExceeds, strictlyExceedsSet]
      omega

theorem checkFieldAgainst_ok (cd pd fn : String) (cv pv : Option Int)
    (h : boundExceeds cv pv = false) :
    checkFieldAgainst cd pd fn cv pv = .ok () := by
  simp [checkFieldAgainst, h]

theorem checkFieldAgainst_err (cd pd fn : String) (cv pv : Option Int)
    (h : boundExceeds cv pv = true) :
    ∃ msg, checkFieldAgainst cd pd fn cv pv = .error (.valueError msg) ∧
      containsExceeds msg := by
  refine ⟨exceedsMsg cd fn (cv.getD 0) pd (pv.getD 0), ?_, ?_⟩
  · simp [checkFieldAgainst, h]
  · exact ⟨_, _, rfl⟩

/-- The boolean trigger of the three-field check loop. -/
def boundsViolateB (cs ca cn pms pma pmn : Option Int) : Bool :=
  boundExceeds cs pms || boundExceeds ca pma || boundExceeds cn pmn

theorem checkOneFilter_ok (sd : String) (idx : Nat) (f : SubPolicyFilter)
    (pms pma pmn : Option Int)
    (h : boundsViolateB f.max_size f.max_age f.max_num pms pma pmn = false) :
    checkOneFilter sd idx f pms pma pmn = .ok () := by
  unfold boundsViolateB at h
  simp only [Bool.or_eq_false_iff] at h
  simp [checkOneFilter, checkFieldAgainst, h.1.1, h.1.2, h.2]

theorem checkOneFilter_err (sd : String) (idx : Nat) (f : SubPolicyFilter)
    (pms pma pmn : Option Int)
    (h : boundsViolateB f.max_size f.max_age f.max_num pms pma pmn = true) :
    ∃ msg, checkOneFilter sd idx f pms pma pmn = .error (.valueError msg) ∧
      containsExceeds msg := by
  unfold checkOneFilter
  by_cases h1 : boundExceeds f.max_size pms
  · obtain ⟨msg, he, hc⟩ :=
      checkFieldAgainst_err ("SubPolicyFilter[" ++ toString idx ++ "]") sd "max_size"
        f.max_size pms h1
    exact ⟨msg, by simp [he], hc⟩
  · by_cases h2 : boundExceeds f.max_age pma
    · obtain ⟨msg, he, hc⟩ :=
        checkFieldAgainst_err ("SubPolicyFilter[" ++ toString idx ++ "]") sd "max_age"
          f.max_age pma h2
      exact ⟨msg, by simp [checkFieldAgainst_ok _ _ _ _ _ (by simpa using h1), he], hc⟩
    · have h3 : boundExceeds f.max_num pmn = true := by
        unfold boundsViolateB at h
        simp only [Bool.or_eq_true] at h
        rcases h with (h | h) | h
        · exact absurd h h1
        · exact absurd h h2
        · exact h
      obtain ⟨msg, he, hc⟩ :=
        checkFieldAgainst_err ("SubPolicyFilter[" ++ toString idx ++ "]") sd "max_num"
          f.max_num pmn h3
      exact ⟨msg,
        by simp [checkFieldAgainst_ok _ _ _ _ _ (by simpa using h1),
          checkFieldAgainst_ok _ _ _ _ _ (by simpa using h2), he], hc⟩

theorem checkFilters_ok (sd : String) (pms pma pmn : Option Int)
    (filters : List SubPolicyFilter)
    (h : ∀ f ∈ filters,
      boundsViolateB f.max_size f.max_age f.max_num pms pma pmn = false) :
    ∀ idx, checkFilters sd pms pma pmn idx filters = .ok () := by
  induction filters with
  | nil => intro idx; rfl
  | cons f rest ih =>
    intro idx
    have hf := h f (by simp)
    have hrest : ∀ g ∈ rest,
        boundsViolateB g.max_size g.max_age g.max_num pms pma pmn = false := by
      intro g hg
      exact h g (by simp [hg])
    simp [checkFilters, checkOneFilter_ok sd idx f pms pma pmn hf, ih hrest]

theorem checkFilters_err (sd : String) (pms pma pmn : Option Int)
    (filters : List SubPolicyFilter)
    (h : ∃ f ∈ filters,
      boundsViolateB f.max_size f.max_age f.max_num pms pma pmn = true) :
    ∀ idx, ∃ msg,
      checkFilters sd pms pma pmn idx filters = .error (.valueError msg) ∧
        containsExceeds msg := by
  induction filters with
  | nil => simp at h
  | cons f rest ih =>
    intro idx
    by_cases hf : boundsViolateB f.max_size f.max_age f.max_num pms pma pmn = true
    · obtain ⟨msg, he, hc⟩ := checkOneFilter_err sd idx f pms pma pmn hf
      exact ⟨msg, by simp [checkFilters, he], hc⟩
    · have hrest : ∃ g ∈ rest,
          boundsViolateB g.max_size g.max_age g.max_num pms pma pmn = true := by
        rcases h with ⟨g, hg, hv⟩
        rcases List.mem_cons.mp hg with hg | hg
        · exact absurd (hg ▸ hv) hf
        · exact ⟨g, hg, hv⟩
      obtain ⟨msg, he, hc⟩ := ih hrest (idx + 1)
      refine ⟨msg, ?_, hc⟩
      simp [checkFilters,
        checkOneFilter_ok sd idx f pms pma pmn (by simpa using hf), he]

theorem checkSub_ok (sd sc : String) (s : SubPolicy) (pms pma pmn : Option Int)
    (h : boundsViolateB s.max_size s.max_age s.max_num pms pma pmn = false) :
    checkSub sd sc (some s) pms pma pmn = .ok () := by
  unfold boundsViolateB at h
  simp only [Bool.or_eq_false_iff] at h
  simp [checkSub, checkFieldAgainst, h.1.1, h.1.2, h.2]

theorem checkSub_err (sd sc : String) (s : SubPolicy) (pms pma pmn : Option Int)
    (h : boundsViolateB s.max_size s.max_age s.max_num pms pma pmn = true) :
    ∃ msg, checkSub sd sc (some s) pms pma pmn = .error (.valueError msg) ∧
      containsExceeds msg := by
  unfold checkSub
  by_cases h1 : boundExceeds s.max_size pms
  · obtain ⟨msg, he, hc⟩ := checkFieldAgainst_err sc sd "max_size" s.max_size pms h1
    exact ⟨msg, by simp [he], hc⟩
  · by_cases h2 : boundExceeds s.max_age pma
    · obtain ⟨msg, he, hc⟩ := checkFieldAgainst_err sc sd "max_age" s.max_age pma h2
      exact ⟨msg, by simp [checkFieldAgainst_ok _ _ _ _ _ (by simpa using h1), he], hc⟩
    · have h3 : boundExceeds s.max_num pmn = true := by
        unfold boundsViolateB at h
        simp only [Bool.or_eq_true] at h
        rcases h with (h | h) | h
        · exact absurd h h1
        · exact absurd h h2
        · exact h
      obtain ⟨msg, he, hc⟩ := checkFieldAgainst_err sc sd "max_num" s.max_num pmn h3
      exact ⟨msg,
        by simp [checkFieldAgainst_ok _ _ _ _ _ (by simpa using h1),
          checkFieldAgainst_ok _ _ _ _ _ (by simpa using h2), he], hc⟩

/-- All sub-bounds of a subpolicy are in normalized form. -/
def validSubBounds (s : SubPolicy) : Prop :=
  validBound s.max_size ∧ validBound s.max_age ∧ validBound s.max_num

/-- Under normalized bounds, the boolean trigger coincides with the
claim's "strictly exceeds a set bound" reading. -/
theorem boundsViolateB_iff (cs ca cn pms pma pmn : Option Int)
    (hcs : validBound cs) (hca : validBound ca) (hcn : validBound cn)
    (hms : validBound pms) (hma : validBound pma) (hmn : validBound pmn) :
    boundsViolateB cs ca cn pms pma pmn = true ↔
      strictlyExceedsSet cs pms ∨ strictlyExceedsSet ca pma ∨
        strictlyExceedsSet cn pmn := by
  unfold boundsViolateB
  simp only [Bool.or_eq_true]
  rw [boundExceeds_iff cs pms hcs hms, boundExceeds_iff ca pma hca hma,
    boundExceeds_iff cn pmn hcn hmn]
  tauto

/-- C5: constructing a subpolicy whose filter strictly exceeds a set
subpolicy bound, or a main policy whose subpolicy strictly exceeds a set
main bound, raises a ValueError whose message contains `exceeds`;
construction succeeds when no such violation exists (an unset parent
bound imposes no limit).  Bound inputs are in normalized `int | None`
form (`none` unset, positive set) and the eviction strings are valid, so
no unrelated construction error fires. -/
theorem policy_construction_exceeds_check :
    (∀ (clsName : String) (enabled : Bool) (ms ma mn : Option Int)
        (ev : String) (filters : List SubPolicyFilter),
      validEviction ev → validBound ms → validBound ma → validBound mn →
      (∀ f ∈ filters, validBound f.max_size ∧ validBound f.max_age ∧
        validBound f.max_num) →
      ((∃ f ∈ filters, strictlyExceedsSet f.max_size ms ∨
          strictlyExceedsSet f.max_age ma ∨ strictlyExceedsSet f.max_num mn) →
        ∃ msg, mkSubPolicy clsName enabled ms ma mn ev filters =
          .error (.valueError msg) ∧ containsExceeds msg) ∧
      ((¬ ∃ f ∈ filters, strictlyExceedsSet f.max_size ms ∨
          strictlyExceedsSet f.max_age ma ∨ strictlyExceedsSet f.max_num mn) →
        ∃ p, mkSubPolicy clsName enabled ms ma mn ev filters = .ok p)) ∧
    (∀ (enabled : Bool) (ms ma mn : Option Int) (ev : String)
        (oci fil : SubPolicy),
      validEviction ev → validBound ms → validBound ma → validBound mn →
      validSubBounds oci → validSubBounds fil →
      ((strictlyExceedsSet oci.max_size ms ∨ strictlyExceedsSet oci.max_age ma ∨
          strictlyExceedsSet oci.max_num mn ∨
          strictlyExceedsSet fil.max_size ms ∨ strictlyExceedsSet fil.max_age ma ∨
          strictlyExceedsSet fil.max_num mn) →
        ∃ msg, mkMainPolicy enabled ms ma mn ev (some oci) (some fil) =
          .error (.valueError msg) ∧ containsExceeds msg) ∧
      ((¬ (strictlyExceedsSet oci.max_size ms ∨ strictlyExceedsSet oci.max_age ma ∨
          strictlyExceedsSet oci.max_num mn ∨
          strictlyExceedsSet fil.max_size ms ∨ strictlyExceedsSet fil.max_age ma ∨
          strictlyExceedsSet fil.max_num mn)) →
        ∃ p, mkMainPolicy enabled ms ma mn ev (some oci) (some fil) = .ok p)) := by
  constructor
  · intro clsName enabled ms ma mn ev filters hev hms hma hmn hf
    obtain ⟨e, hevok⟩ := resolve_eviction_valid clsName ev hev
    have hpm := parse_bound_valid clsName "max_size" ms hms
    have hpa := parse_bound_valid clsName "max_age" ma hma
    constructor
    · rintro ⟨f, hfmem, hviol⟩
      have hB : ∃ g ∈ filters,
          boundsViolateB g.max_size g.max_age g.max_num ms ma mn = true := by
        refine ⟨f, hfmem, ?_⟩
        rw [boundsViolateB_iff f.max_size f.max_age f.max_num ms ma mn
          (hf f hfmem).1 (hf f hfmem).2.1 (hf f hfmem).2.2 hms hma hmn]
        exact hviol
      obtain ⟨msg, hcf, hc⟩ := checkFilters_err clsName ms ma mn filters hB 0
      exact ⟨msg, by simp [mkSubPolicy, hevok, hpm, hpa, hcf], hc⟩
    · intro hno
      have hB : ∀ g ∈ filters,
          boundsViolateB g.max_size g.max_age g.max_num ms ma mn = false := by
        intro g hg
        rw [Bool.eq_false_iff]
        intro habs
        rw [boundsViolateB_iff g.max_size g.max_age g.max_num ms ma mn
          (hf g hg).1 (hf g hg).2.1 (hf g hg).2.2 hms hma hmn] at habs
        exact hno ⟨g, hg, habs⟩
      have hcf := checkFilters_ok clsName ms ma mn filters hB 0
      exact ⟨{ enabled := enabled, max_size := ms, max_age := ma, max_num := mn,
               eviction := e, filters := filters },
        by simp [mkSubPolicy, hevok, hpm, hpa, hcf]⟩
  · intro enabled ms ma mn ev oci fil hev hms hma hmn hoci hfil
    obtain ⟨e, hevok⟩ := resolve_eviction_valid "MainPolicy" ev hev
    have hpm := parse_bound_valid "MainPolicy" "max_size" ms hms
    have hpa := parse_bound_valid "MainPolicy" "max_age" ma hma
    have hociIff := boundsViolateB_iff oci.max_size oci.max_age oci.max_num ms ma mn
      hoci.1 hoci.2.1 hoci.2.2 hms hma hmn
    have hfilIff := boundsViolateB_iff fil.max_size fil.max_age fil.max_num ms ma mn
      hfil.1 hfil.2.1 hfil.2.2 hms hma hmn
    constructor
    · intro hviol
      by_cases hvo : boundsViolateB oci.max_size oci.max_age oci.max_num ms ma mn = true
      · obtain ⟨msg, hck, hc⟩ := checkSub_err "MainPolicy" "OCIImagePolicy" oci ms ma mn hvo
        exact ⟨msg, by simp [mkMainPolicy, hevok, hpm, hpa, hck], hc⟩
      · have hvf : boundsViolateB fil.max_size fil.max_age fil.max_num ms ma mn = true := by
          rw [hfilIff]
          rw [Bool.not_eq_true] at hvo
          rw [Bool.eq_false_iff] at hvo
          rcases hviol with h | h | h | h | h | h
          · exact absurd (hociIff.mpr (Or.inl h)) hvo
          · exact absurd (hociIff.mpr (Or.inr (Or.inl h))) hvo
          · exact absurd (hociIff.mpr (Or.inr (Or.inr h))) hvo
          · exact Or.inl h
          · exact Or.inr (Or.inl h)
          · exact Or.inr (Or.inr h)
        have hcko := checkSub_ok "MainPolicy" "OCIImagePolicy" oci ms ma mn
          (by simpa using hvo)
        obtain ⟨msg, hck, hc⟩ := checkSub_err "MainPolicy" "FilesPolicy" fil ms ma mn hvf
        exact ⟨msg, by simp [mkMainPolicy, hevok, hpm, hpa, hcko, hck], hc⟩
    · intro hno
      have hvo : boundsViolateB oci.max_size oci.max_age oci.max_num ms ma mn = false := by
        rw [Bool.eq_false_iff]
        intro habs
        rw [hociIff] at habs
        exact hno (by tauto)
      have hvf : boundsViolateB fil.max_size fil.max_age fil.max_num ms ma mn = false := by
        rw [Bool.eq_false_iff]
        intro habs
        rw [hfilIff] at habs
        exact hno (by tauto)
      have hcko := checkSub_ok "MainPolicy" "OCIImagePolicy" oci ms ma mn hvo
      have hckf := checkSub_ok "MainPolicy" "FilesPolicy" fil ms ma mn hvf
      exact ⟨{ enabled := enabled, max_size := ms, max_age := ma, max_num := mn,
               eviction := e, oci_images := some oci, files := some fil },
        by simp [mkMainPolicy, hevok, hpm, hpa, hcko, hckf]⟩

/-- An empty subpolicy with no bounds and default (lru) eviction. -/
def emptySub : SubPolicy :=
  { enabled := true, max_size := none, max_age := none, max_num := none,
    eviction := .lru, filters := [] }

/-- A filter with `max_size = 200`, for the C5 witness. -/
def sampleFilter : SubPolicyFilter :=
  { pattern := "^ftp://", ignore := false, max_size := some 200,
    max_age := none, max_num := none, eviction := .lru,
    matchFn := fun _ => false }

/-- C5 witness: a subpolicy with a filter whose `max_size` (200) exceeds
the subpolicy's (100) fails with an "exceeds" error; a main policy with
bound 100 and subpolicy bounds 50 succeeds. -/
theorem policy_construction_exceeds_check_witness :
    (∃ msg, mkSubPolicy "FilesPolicy" true (some 100) none none "lru" [sampleFilter] =
      .error (.valueError msg) ∧ containsExceeds msg) ∧
    (∃ p, mkMainPolicy true (some 100) none none "lru"
        (some { emptySub with max_size := some 50 })
        (some { emptySub with max_size := some 50 }) = .ok p) := by
  constructor
  · exact (policy_construction_exceeds_check.1 "FilesPolicy" true (some 100) none none
      "lru" [sampleFilter] (Or.inr (by decide)) (by intro v hv; simp at hv; omega)
      (by intro v hv; simp at hv) (by intro v hv; simp at hv)
      (by
        intro f hf
        simp at hf
        subst hf
        refine ⟨?_, ?_, ?_⟩ <;> intro v hv <;> simp [sampleFilter] at hv
        omega)).1
      ⟨sampleFilter, by simp, Or.inl ⟨200, 100, rfl, rfl, by omega⟩⟩
  · exact (policy_construction_exceeds_check.2 true (some 100) none none "lru"
      { emptySub with max_size := some 50 } { emptySub with max_size := some 50 }
      (Or.inr (by decide)) (by intro v hv; simp at hv; omega)
      (by intro v hv; simp at hv) (by intro v hv; simp at hv)
      ⟨by intro v hv; simp [emptySub] at hv; omega, by intro v hv; simp [emptySub] at hv,
        by intro v hv; simp [emptySub] at hv⟩
      ⟨by intro v hv; simp [emptySub] at hv; omega, by intro v hv; simp [emptySub] at hv,
        by intro v hv; simp [emptySub] at hv⟩).2
      (by
        rintro (⟨c, p, hc, hp, hlt⟩ | ⟨c, p, hc, hp, hlt⟩ | ⟨c, p, hc, hp, hlt⟩ |
          ⟨c, p, hc, hp, hlt⟩ | ⟨c, p, hc, hp, hlt⟩ | ⟨c, p, hc, hp, hlt⟩) <;>
          simp [emptySub] at hc hp <;> omega)

/-! ## Eviction engine (`cache/manager.py`, module-level `get_eviction_for`)

The engine receives a list of entry objects and one policy node
(`MainPolicy | OCIImagePolicy | FilesPolicy`).  It mutates entries in
place (`__seen`, `check_after`), so the embedding threads the entry list
as a store keyed by `fpath` and returns both the eviction list — as
`(fpath, reason)` pairs — and the final store.

Crucially, the engine reads `check_after`, `keep_identified_versions`,
`max_age_seconds` and `max_size_bytes` on the policy and filter objects,
none of which `cache/policy.py` defines (its classes carry only
`max_size`, `max_age`, `max_num`, `eviction`, `enabled`, `filters`,
`pattern`, `ignore`, `oci_images`, `files`): those lookups raise
`AttributeError`, modelled below by error-returning accessors. -/

/-- The policy argument of the engine. -/
inductive PolicyNode where
  | main (p : MainPolicy)
  | ociImages (p : SubPolicy)
  | files (p : SubPolicy)

/-- `type(policy).__name__` (used in eviction reason strings). -/
def PolicyNode.className : PolicyNode → String
  | .main _ => "MainPolicy"
  | .ociImages _ => "OCIImagePolicy"
  | .files _ => "FilesPolicy"

/-- `hasattr(policy, "enabled")`: all three classes define `enabled`. -/
def PolicyNode.hasEnabledAttr : PolicyNode → Bool
  | _ => true

def PolicyNode.enabled : PolicyNode → Bool
  | .main p => p.enabled
  | .ociImages p => p.enabled
  | .files p => p.enabled

def PolicyNode.max_size : PolicyNode → Option Int
  | .main p => p.max_size
  | .ociImages p => p.max_size
  | .files p => p.max_size

def PolicyNode.max_age : PolicyNode → Option Int
  | .main p => p.max_age
  | .ociImages p => p.max_age
  | .files p => p.max_age

def PolicyNode.max_num : PolicyNode → Option Int
  | .main p => p.max_num
  | .ociImages p => p.max_num
  | .files p => p.max_num

def PolicyNode.eviction : PolicyNode → Eviction
  | .main p => p.eviction
  | .ociImages p => p.eviction
  | .files p => p.eviction

/-- `hasattr(policy, "filters")`: only subpolicies have filters. -/
def PolicyNode.filtersAttr : PolicyNode → Option (List SubPolicyFilter)
  | .main _ => none
  | .ociImages p => some p.filters
  | .files p => some p.filters

/-- `CommonParamsMixin.max_age_dt`: `None` when `max_age` is falsy, else
`utcnow() - timedelta(seconds=max_age)`. -/
def max_age_dt (maxAge : Option Int) (now : Int) : Option Int :=
  match maxAge with
  | none => none
  | some a => if a = 0 then none else some (now - a)

/-- `if <node>.max_age_dt and entry.added_on < <node>.max_age_dt`
(a datetime object is always truthy). -/
def maxAgeDtCond (maxAge : Option Int) (now addedOn : Int) : Bool :=
  match max_age_dt maxAge now with
  | some dt => decide (addedOn < dt)
  | none => false

/-- Python attribute lookup `<policy>.check_after`: no policy class
defines `check_after`, so it raises `AttributeError`. -/
def PolicyNode.getattr_check_after (_ : PolicyNode) : Except PyErr (Option Int) :=
  .error (.attributeError "check_after")

/-- Python attribute lookup `<policy>.keep_identified_versions`: not
defined by any policy class, so it raises `AttributeError`. -/
def PolicyNode.getattr_keep_identified_versions (_ : PolicyNode) :
    Except PyErr (Option Int) :=
  .error (.attributeError "keep_identified_versions")

/-- Python attribute lookup `<policy>.max_age_seconds`: not defined, so
it raises `AttributeError`. -/
def PolicyNode.getattr_max_age_seconds (_ : PolicyNode) : Except PyErr Int :=
  .error (.attributeError "max_age_seconds")

/-- Python attribute lookup `<policy>.max_size_bytes`: not defined, so it
raises `AttributeError`. -/
def PolicyNode.getattr_max_size_bytes (_ : PolicyNode) : Except PyErr Int :=
  .error (.attributeError "max_size_bytes")

/-- `filter_.check_after`: `SubPolicyFilter` defines only `pattern`,
`ignore` and the common bounds, so the lookup raises `AttributeError`. -/
def SubPolicyFilter.getattr_check_after (_ : SubPolicyFilter) :
    Except PyErr (Option Int) :=
  .error (.attributeError "check_after")

/-- `filter_.keep_identified_versions`: not defined, raises. -/
def SubPolicyFilter.getattr_keep_identified_versions (_ : SubPolicyFilter) :
    Except PyErr (Option Int) :=
  .error (.attributeError "keep_identified_versions")

/-- `filter_.max_age_seconds`: not defined, raises. -/
def SubPolicyFilter.getattr_max_age_seconds (_ : SubPolicyFilter) :
    Except PyErr Int :=
  .error (.attributeError "max_age_seconds")

/-- `filter_.max_size_bytes`: not defined, raises. -/
def SubPolicyFilter.getattr_max_size_bytes (_ : SubPolicyFilter) :
    Except PyErr Int :=
  .error (.attributeError "max_size_bytes")

/-- `format_duration` renders a number of seconds through the external
`humanfriendly` library; the exact rendering is immaterial here and is
modelled as the decimal string. -/
def format_duration (seconds : Int) : String := toString seconds

/-- `format_size`, likewise modelled as the decimal string. -/
def format_size (sizeBytes : Int) : String := toString sizeBytes

/-- `RE_OCI_VERSIONED = ^(?P<ident>.+):(?P<version>.+)$` applied to an
entry path: with the greedy `.+`, the match splits at the last `:` that
leaves both sides non-empty (`.` also matches `:`).  Paths are assumed
newline-free (`.` does not cross newlines). -/
def matchOCIVersioned (s : String) : Option (String × String) :=
  let cs := s.data
  let n := cs.length
  if cs.contains '\n' then none
  else
    match ((List.range n).filter fun i =>
        cs.getD i ' ' == ':' && decide (1 ≤ i) && decide (i + 1 < n)).getLast? with
    | none => none
    | some i => some (⟨cs.take i⟩, ⟨cs.drop (i + 1)⟩)

/-- `\d{4}-\d{2}`: four digits, a dash, two digits. -/
def versionChunkOk : List Char → Bool
  | [a, b, c, d, e, f, g] =>
    a.isDigit && b.isDigit && c.isDigit && d.isDigit && e == '-' &&
      f.isDigit && g.isDigit
  | _ => false

/-- `RE_FILES_VERSIONED = ^(?P<ident>.+)_(?P<version>\d{4}-\d{2}).zim$`
applied to an entry path (note the unescaped `.` before `zim`: any
non-newline character).  The tail has fixed width, so the split position
is forced; paths are assumed newline-free. -/
def matchFilesVersioned (s : String) : Option (String × String) :=
  let cs := s.data
  let n := cs.length
  if cs.contains '\n' then none
  else if n ≥ 13 && cs.drop (n - 3) == "zim".data &&
      versionChunkOk ((cs.drop (n - 11)).take 7) &&
      cs.getD (n - 12) ' ' == '_' then
    some (⟨cs.take (n - 12)⟩, ⟨(cs.drop (n - 11)).take 7⟩)
  else none

/-- `matched_ident_version(entry)`: the subpolicy kind picks its regex;
the main policy tries the OCI pattern first, then the files pattern. -/
def matched_ident_version (pol : PolicyNode) (e : CacheEntry) :
    Option (String × String) :=
  match pol with
  | .ociImages _ => matchOCIVersioned e.fpath
  | .files _ => matchFilesVersioned e.fpath
  | .main _ =>
    match matchOCIVersioned e.fpath with
    | some r => some r
    | none => matchFilesVersioned e.fpath

/-! Natural sorting (`natsorted` from the external `natsort` package):
split each key into runs of digits (compared numerically) and runs of
other characters (compared lexicographically), numbers ordering before
text; the sort is stable. -/

/-- Accumulate one character into the chunk list. -/
def pushChunk (acc : List (String ⊕ Nat)) (c : Char) : List (String ⊕ Nat) :=
  if c.isDigit then
    match acc.getLast? with
    | some (Sum.inr n) => acc.dropLast ++ [Sum.inr (n * 10 + (c.toNat - '0'.toNat))]
    | _ => acc ++ [Sum.inr (c.toNat - '0'.toNat)]
  else
    match acc.getLast? with
    | some (Sum.inl s) => acc.dropLast ++ [Sum.inl (s.push c)]
    | _ => acc ++ [Sum.inl (String.singleton c)]

def natChunks (s : String) : List (String ⊕ Nat) := s.data.foldl pushChunk []

def chunkLt : (String ⊕ Nat) → (String ⊕ Nat) → Bool
  | .inr m, .inr n => decide (m < n)
  | .inl s, .inl t => decide (s < t)
  | .inr _, .inl _ => true
  | .inl _, .inr _ => false

def natKeyLt : List (String ⊕ Nat) → List (String ⊕ Nat) → Bool
  | [], [] => false
  | [], _ :: _ => true
  | _ :: _, [] => false
  | a :: as, b :: bs => if a = b then natKeyLt as bs else chunkLt a b

/-- `a` sorts no later than `b` under natural order. -/
def natLe (a b : String) : Bool := !(natKeyLt (natChunks b) (natChunks a))

/-- `natsorted(l, key=...)` (stable). -/
def natsortedBy (key : CacheEntry → String) (l : List CacheEntry) :
    List CacheEntry :=
  insertionSortB (fun x y => natLe (key x) (key y)) l

/-- Python `l[: -k]` for a non-zero int `k`. -/
def pySliceUpToNeg (l : List CacheEntry) (k : Int) : List CacheEntry :=
  if k > 0 then l.take (l.length - k.toNat) else l.take (-k).toNat

/-- Mutate the entry object with path `fp` in the store. -/
def updateEntry (store : List CacheEntry) (fp : String)
    (f : CacheEntry → CacheEntry) : List CacheEntry :=
  store.map fun e => if e.fpath == fp then f e else e

/-- Add an entry to the per-ident version bucket dict (insertion-ordered).
Mirrors: create the `{"num": kiv, "entries": []}` slot on first sight of
`ident`, then append the entry. -/
def bucketAdd (d : List (String × Option Int × List CacheEntry)) (ident : String)
    (kiv : Option Int) (e : CacheEntry) :
    List (String × Option Int × List CacheEntry) :=
  let d := if d.any (fun b => b.1 == ident) then d else d ++ [(ident, kiv, [])]
  d.map fun b => if b.1 == ident then (b.1, b.2.1, b.2.2 ++ [e]) else b

/-- The version-retention sweep shared by the filter phase and the policy
phase: for each ident bucket holding more than the allowed number of
entries, sort naturally by version string and evict all but the newest
`keep` ones. -/
def retentionEvictions (pol : PolicyNode) (kiv : Option Int)
    (buckets : List (String × Option Int × List CacheEntry)) :
    List (String × String) :=
  buckets.foldl
    (fun acc b =>
      -- `if not item["num"] or len(item["entries"]) <= item["num"]: continue`
      if !truthyInt b.2.1 || decide ((b.2.2.length : Int) ≤ b.2.1.getD 0) then acc
      else
        acc ++
          (pySliceUpToNeg
              (natsortedBy
                (fun e => ((matched_ident_version pol e).getD ("", "")).2) b.2.2)
              (kiv.getD 0)).map
            fun e =>
              (e.fpath,
                "Version now obsolete (keeping only " ++ toString (kiv.getD 0) ++ ")"))
    []

/-- Module-level `get_eviction_for(entries, policy)`: the faithful
translation.  Returns the `(entry, reason)` list as `(fpath, reason)`
pairs together with the final entry store (the каller sees the in-place
mutations).  The policy-attribute accessors raise `AttributeError`
exactly where the source reads the undefined fields. -/
def get_eviction_for (entries0 : List CacheEntry) (pol : PolicyNode)
    (now : Int) : Except PyErr (List (String × String) × List CacheEntry) := do
  -- `if hasattr(policy, "enabled") and not policy.enabled: return []`
  if pol.hasEnabledAttr ∧ ¬ pol.enabled then
    return ([], entries0)
  let mut evictions : List (String × String) := []
  let mut store := entries0
  let mut total_num : Int := 0
  let mut total_size : Int := 0
  -- Phase A — filters (only subpolicies have them)
  match pol.filtersAttr with
  | none => pure ()
  | some filters =>
    for filt in filters do
      let mut filter_num : Int := 0
      let mut filter_size : Int := 0
      let mut buckets : List (String × Option Int × List CacheEntry) := []
      for entry in sort_for filt.eviction store do
        -- skip if it does not match, or a prior filter claimed it
        if !(filt.matchFn entry.source) || entry.seen then
          continue
        -- `setattr(entry, "__seen", True)`
        store := updateEntry store entry.fpath fun e => { e with seen := true }
        -- `if filter_.check_after is not None: entry.check_after = ...`
        let ca ← filt.getattr_check_after
        match ca with
        | some v =>
          store := updateEntry store entry.fpath fun e => { e with check_after := some v }
        | none => pure ()
        if filt.ignore then
          evictions := evictions ++ [(entry.fpath, "ignored pattern " ++ filt.pattern)]
          continue
        if maxAgeDtCond filt.max_age now entry.added_on then
          let mas ← filt.getattr_max_age_seconds
          evictions := evictions ++
            [(entry.fpath, "Too old for filter max_age (" ++ format_duration mas ++ ")")]
          continue
        if truthyInt filt.max_size &&
            decide (filter_size + entry.size > filt.max_size.getD 0) then
          let msb ← filt.getattr_max_size_bytes
          evictions := evictions ++
            [(entry.fpath, "Would exceed filter max_size (" ++ format_size msb ++ ")")]
          continue
        if truthyInt filt.max_num && decide (filter_num + 1 > filt.max_num.getD 0) then
          -- the source's f-string lacks the closing parenthesis here
          evictions := evictions ++
            [(entry.fpath,
              "Would exceed filter max_num (" ++ toString (filt.max_num.getD 0))]
          continue
        let kiv ← filt.getattr_keep_identified_versions
        if truthyInt kiv then
          match matched_ident_version pol entry with
          | some found => buckets := bucketAdd buckets found.1 kiv entry
          | none => pure ()
        filter_size := filter_size + entry.size
        filter_num := filter_num + 1
      -- `if filter_.keep_identified_versions:` — version retention
      let kiv ← filt.getattr_keep_identified_versions
      if truthyInt kiv then
        evictions := evictions ++ retentionEvictions pol kiv buckets
  -- Phase B — policy-level boundaries
  let mut buckets2 : List (String × Option Int × List CacheEntry) := []
  for entry in sort_for pol.eviction store do
    -- `if policy.check_after is not None: entry.check_after = ...`
    let ca ← pol.getattr_check_after
    match ca with
    | some v =>
      store := updateEntry store entry.fpath fun e => { e with check_after := some v }
    | none => pure ()
    if entry.kind == "file" && !(is_http entry.source) then
      evictions := evictions ++ [(entry.fpath, "Source protocol not cacheable")]
      continue
    if maxAgeDtCond pol.max_age now entry.added_on then
      let mas ← pol.getattr_max_age_seconds
      evictions := evictions ++
        [(entry.fpath,
          "Too old for " ++ pol.className ++ " max_age (" ++ format_duration mas ++ ")")]
      continue
    if truthyInt pol.max_size &&
        decide (total_size + entry.size > pol.max_size.getD 0) then
      let msb ← pol.getattr_max_size_bytes
      evictions := evictions ++
        [(entry.fpath,
          "Would exceed " ++ pol.className ++ " max_size (" ++ format_size msb ++ ")")]
      continue
    if truthyInt pol.max_num && decide (total_num + 1 > pol.max_num.getD 0) then
      evictions := evictions ++
        [(entry.fpath,
          "Would exceed " ++ pol.className ++ " max_num (" ++
            toString (pol.max_num.getD 0) ++ ")")]
      continue
    let kiv ← pol.getattr_keep_identified_versions
    if truthyInt kiv then
      match matched_ident_version pol entry with
      | some found => buckets2 := bucketAdd buckets2 found.1 kiv entry
      | none => pure ()
    total_size := total_size + entry.size
    total_num := total_num + 1
  let kiv ← pol.getattr_keep_identified_versions
  if truthyInt kiv then
    evictions := evictions ++ retentionEvictions pol kiv buckets2
  return (evictions, store)

/-- A main policy equal in content to `MainPolicy.defaults()` after
parsing: enabled, `max_size = 10 GiB`, lru eviction, default (empty)
subpolicies. -/
def defaultsMainPolicy : MainPolicy :=
  { enabled := true, max_size := some 10737418240, max_age := none,
    max_num := none, eviction := .lru, oci_images := some emptySub,
    files := some emptySub }

/-- C1: `get_eviction_for` does NOT terminate normally on every input —
for every enabled policy it raises `AttributeError`, because
`cache/policy.py` defines none of `check_after`,
`keep_identified_versions`, `max_age_seconds`, `max_size_bytes` that the
engine reads.  On the empty entry list the final
`if policy.keep_identified_versions:` raises; with one entry the first
loop statement `if policy.check_after is not None:` raises. -/
theorem get_eviction_for_raises_attribute_error :
    get_eviction_for [] (.main defaultsMainPolicy) 1000 =
      .error (.attributeError "keep_identified_versions") ∧
    get_eviction_for [sampleEntry] (.main defaultsMainPolicy) 1000 =
      .error (.attributeError "check_after") := by
  constructor
  · rfl
  · rfl

/-! ## Cache manager (`cache/manager.py`, class `CacheManager`)

The manager keys its `entries` dict by cache-relative path and its
`candidates` dict by the same relative path; entry objects hold absolute
paths (`root/<key>`), candidate objects hold the relative path until
`introduce` absolutizes it.  Dicts are insertion-ordered association
lists.  The filesystem is a set of existing paths plus an abnormal-failure
oracle for `unlink`; the remote digest fetch of `digest_for_item` is an
`Except Unit String` oracle. -/

/-- An `Item` (`File | OCIImage`).  The classes live in the external
`offspot_config` package; the embedding carries the three attributes the
manager reads (`kind`, `source`, `size`) plus the item's deterministic
cache key, abstracting `path_for_file` / `path_for_image` whose output is
a function of the item's external URL / OCI reference fields. -/
structure Item where
  kind : String
  source : String
  size : Int
  relpath : String

/-- `path_for_item(item)`: the deterministic cache-relative path. -/
def path_for_item (item : Item) : String := item.relpath

/-- On-disk state: the set of existing files and an abnormal-failure
oracle for `unlink` (e.g. permissions). -/
structure FS where
  files : List String
  fail_unlink : String → Bool

/-- `Path.unlink()`: raises when the file is absent or the oracle fails
it; removes the path otherwise. -/
def FS.unlink (fs : FS) (p : String) : Except Unit FS :=
  if fs.files.contains p && !(fs.fail_unlink p) then
    .ok { fs with files := fs.files.erase p }
  else .error ()

def dictValues (d : List (String × CacheEntry)) : List CacheEntry := d.map (·.2)

def dictContains (d : List (String × CacheEntry)) (k : String) : Bool :=
  d.any (fun kv => kv.1 == k)

def dictFind? (d : List (String × CacheEntry)) (k : String) : Option CacheEntry :=
  (d.find? (fun kv => kv.1 == k)).map (·.2)

/-- `d[k] = v`: update in place when present (order preserved), append
otherwise — Python dict semantics. -/
def dictInsert (d : List (String × CacheEntry)) (k : String) (v : CacheEntry) :
    List (String × CacheEntry) :=
  if d.any (fun kv => kv.1 == k) then
    d.map fun kv => if kv.1 == k then (kv.1, v) else kv
  else d ++ [(k, v)]

/-- `del d[k]` (the callers below guard or swallow the `KeyError`). -/
def dictRemove (d : List (String × CacheEntry)) (k : String) :
    List (String × CacheEntry) :=
  d.filter fun kv => !(kv.1 == k)

/-- Propagate the engine's in-place mutations of shared entry objects
back into a dict, matching objects by `fpath`. -/
def resyncDict (d : List (String × CacheEntry)) (store : List CacheEntry) :
    List (String × CacheEntry) :=
  d.map fun kv => (kv.1, (store.find? (fun e => e.fpath == kv.2.fpath)).getD kv.2)

/-- `entry.fpath.relative_to(self.root)` for an absolute entry path. -/
def relativeToRoot (root fpath : String) : String :=
  if (root ++ "/").data.isPrefixOf fpath.data then ⟨fpath.data.drop (root.length + 1)⟩
  else fpath

structure CacheManager where
  root : String
  ref_date : Int
  policy : MainPolicy
  entries : List (String × CacheEntry)
  discovered : Bool
  applied : Bool
  candidates : List (String × CacheEntry)
  considered : Bool

/-- `entry not in evictions` where `evictions` is a list of
`(entry, reason)` tuples: a bare `CacheEntry` never equals a tuple, so
the membership test is always False and the comprehension keeps every
entry. -/
def entryInTupleList (_ : CacheEntry) (_ : List (String × String)) : Bool := false

/-- `CacheManager.get_eviction_for(entries)`: images through the
`oci_images` subpolicy, files through `files`, everything through the
main policy, then `list(set(evictions))`.  (A Python set's iteration
order is unspecified; the dedup keeps first occurrences.)  Returns the
deduplicated evictions and the final shared entry objects. -/
def CacheManager.get_eviction_for (m : CacheManager) (entries : List CacheEntry)
    (now : Int) : Except PyErr (List (String × String) × List CacheEntry) := do
  if ¬ m.policy.enabled then
    return ([], entries)
  let mut evictions : List (String × String) := []
  let mut entriesCur := entries
  -- `if self.policy.oci_images:` (an object is truthy, None falsy)
  match m.policy.oci_images with
  | some oci =>
    let (evs, upd) ← ImageCreator.get_eviction_for
      (entriesCur.filter fun e => e.kind == "image") (.ociImages oci) now
    evictions := evs
    entriesCur := entriesCur.map fun e => (upd.find? (fun u => u.fpath == e.fpath)).getD e
  | none =>
    evictions := []
  entriesCur := entriesCur.filter fun e => !(entryInTupleList e evictions)
  match m.policy.files with
  | some fil =>
    let (evs, upd) ← ImageCreator.get_eviction_for
      (entriesCur.filter fun e => e.kind == "file") (.files fil) now
    evictions := evictions ++ evs
    entriesCur := entriesCur.map fun e => (upd.find? (fun u => u.fpath == e.fpath)).getD e
  | none => pure ()
  entriesCur := entriesCur.filter fun e => !(entryInTupleList e evictions)
  let (evs, upd) ← ImageCreator.get_eviction_for entriesCur (.main m.policy) now
  evictions := evictions ++ evs
  entriesCur := entriesCur.map fun e => (upd.find? (fun u => u.fpath == e.fpath)).getD e
  return (evictions.eraseDups, entriesCur)

/-- `CacheManager.dry_apply()`: the engine over the current entries; the
in-place mutations are reflected back into the entries dict. -/
def CacheManager.dry_apply (m : CacheManager) (now : Int) :
    Except PyErr (List (String × String) × CacheManager) := do
  let (evs, upd) ← m.get_eviction_for (dictValues m.entries) now
  return (evs, { m with entries := resyncDict m.entries upd })

/-- `CacheManager.evict(entry, reason)`: no-op on a disabled policy;
`unlink` failures are logged and yield False; then the entry is deleted
from the dict (a missing key would raise `KeyError`). -/
def CacheManager.evict (m : CacheManager) (fs : FS) (fpath : String)
    (_reason : String) : Except PyErr (Bool × CacheManager × FS) :=
  if ¬ m.policy.enabled then .ok (false, m, fs)
  else
    match fs.unlink fpath with
    | .error _ => .ok (false, m, fs)
    | .ok fs' =>
      let rel := relativeToRoot m.root fpath
      if dictContains m.entries rel then
        .ok (true, { m with entries := dictRemove m.entries rel }, fs')
      else .error (.keyError rel)

/-- `CacheManager.apply()`: evict everything `dry_apply` lists, then set
the `applied` flag. -/
def CacheManager.apply (m : CacheManager) (fs : FS) (now : Int) :
    Except PyErr (List (String × String × Bool) × CacheManager × FS) := do
  if ¬ m.policy.enabled then
    return ([], m, fs)
  let (evs, m1) ← m.dry_apply now
  let mut mm := m1
  let mut ffs := fs
  let mut out : List (String × String × Bool) := []
  for ev in evs do
    let (ok, m2, fs2) ← mm.evict ffs ev.1 ev.2
    mm := m2
    ffs := fs2
    out := out ++ [(ev.1, ev.2, ok)]
  mm := { mm with applied := true }
  return (out, mm, ffs)

/-- `CacheCandidate(item, added_on)`: kind/source/size from the item, the
relative cache key as `fpath`, the digest from the remote fetch, and all
three timestamps set to `added_on`. -/
def CacheCandidate.make (item : Item) (added_on : Int) (digest : String) :
    CacheEntry :=
  { fpath := path_for_item item, size := item.size, added_on := added_on,
    last_checked_on := added_on, last_used_on := added_on, nb_used := 0,
    kind := item.kind, source := item.source, digest := digest }

/-- `CacheManager.add_candidate(item)`: no-op when the policy is
disabled; otherwise run `apply()` first if baseline eviction has not been
applied yet, then register the candidate under the item's key (the
candidate constructor performs the remote digest fetch, whose failure
propagates). -/
def CacheManager.add_candidate (m : CacheManager) (fs : FS) (item : Item)
    (now : Int) (digestRes : Except Unit String) :
    Except PyErr (CacheManager × FS) := do
  if ¬ m.policy.enabled then
    return (m, fs)
  let mut mm := m
  let mut ffs := fs
  if ¬ mm.applied then
    let (_, m1, fs1) ← mm.apply ffs now
    mm := m1
    ffs := fs1
  let digest ← match digestRes with
    | .error _ => Except.error (PyErr.osError "digest retrieval failed")
    | .ok d => Except.ok d
  let cand := CacheCandidate.make item mm.ref_date digest
  return ({ mm with candidates := dictInsert mm.candidates (path_for_item item) cand },
    ffs)

/-- `CacheManager.apply_candidates()`: run the engine over entries ∪
candidates; evict listed entries from disk, drop listed candidates from
the candidate dict (`KeyError` from a twice-listed candidate is
swallowed — `dictRemove` of an absent key is a no-op); mark considered. -/
def CacheManager.apply_candidates (m : CacheManager) (fs : FS) (now : Int) :
    Except PyErr (CacheManager × FS) := do
  let (evs, upd) ← m.get_eviction_for
    (dictValues m.entries ++ dictValues m.candidates) now
  let mut mm := { m with entries := resyncDict m.entries upd,
                         candidates := resyncDict m.candidates upd }
  let mut ffs := fs
  for ev in evs do
    -- `if entry in self.entries.values():` (object identity via fpath)
    if mm.entries.any fun kv => kv.2.fpath == ev.1 then
      let (_, m2, fs2) ← mm.evict ffs ev.1 (ev.2 ++ " [apply-candidates]")
      mm := m2
      ffs := fs2
    else
      mm := { mm with candidates := dictRemove mm.candidates ev.1 }
  mm := { mm with considered := true }
  return (mm, ffs)

/-- `CacheManager.should_cache(item)`: false on a disabled policy; runs
`apply_candidates` first when not yet considered; then candidate-map
membership. -/
def CacheManager.should_cache (m : CacheManager) (fs : FS) (item : Item)
    (now : Int) : Except PyErr (Bool × CacheManager × FS) := do
  if ¬ m.policy.enabled then
    return (false, m, fs)
  let mut mm := m
  let mut ffs := fs
  if ¬ mm.considered then
    let (m1, fs1) ← mm.apply_candidates ffs now
    mm := m1
    ffs := fs1
  return (dictContains mm.candidates (path_for_item item), mm, ffs)

/-- Filesystem actions `introduce` performs, in order. -/
inductive FsEvent where
  | copied (src dst : String)
  | wroteMeta (dst : String)
  | unlinked (p : String)
  deriving Repr, DecidableEq

/-- `CacheManager.introduce(item, src_path)`: admission check, candidate
lookup, in-place absolutization of the candidate's path, metadata
assembly (including a fresh remote digest fetch whose failure
propagates), copy (`False` on failure), metadata write (on failure the
partial file's unlink is attempted and `False` returned), and finally the
atomic candidate→entry promotion.  `copyOk` / `metaOk` are the
filesystem oracles for the two `try` blocks. -/
def CacheManager.introduce (m : CacheManager) (fs : FS) (item : Item)
    (src_path : String) (now : Int) (digestRes : Except Unit String)
    (copyOk metaOk : Bool) :
    Except PyErr (Bool × CacheManager × FS × List FsEvent) := do
  let (sc, mm0, fs0) ← m.should_cache fs item now
  if ¬ sc then
    return (false, mm0, fs0, [])
  let relpath := path_for_item item
  -- `entry = self.candidates[relpath]` — present, since `should_cache`
  -- just returned candidate-map membership
  let entry0 ← match dictFind? mm0.candidates relpath with
    | some e => Except.ok e
    | none => Except.error (PyErr.keyError relpath)
  -- `entry.fpath = self.root.joinpath(entry.fpath)` mutates the shared
  -- candidate object
  let entry := { entry0 with fpath := mm0.root ++ "/" ++ entry0.fpath }
  let mm1 := { mm0 with candidates := dictInsert mm0.candidates relpath entry }
  let _digest ← match digestRes with
    | .error _ => Except.error (PyErr.osError "digest retrieval failed")
    | .ok d => Except.ok d
  -- `try: copy_file(src_path, entry.fpath) except: return False`
  if ¬ copyOk then
    return (false, mm1, fs0, [])
  let newFiles :=
    if fs0.files.contains entry.fpath then fs0.files else fs0.files ++ [entry.fpath]
  let fs1 : FS := { fs0 with files := newFiles }
  let events1 := [FsEvent.copied src_path entry.fpath]
  -- `try: attrs.clear(); attrs[k] = v … except: try: entry.fpath.unlink()
  --  …; return False`
  if ¬ metaOk then
    let fs2 := match fs1.unlink entry.fpath with
      | .ok f => f
      | .error _ => fs1
    return (false, mm1, fs2, events1 ++ [FsEvent.unlinked entry.fpath])
  let events2 := events1 ++ [FsEvent.wroteMeta entry.fpath]
  -- move from candidates to entries
  let mm2 := { mm1 with entries := dictInsert mm1.entries relpath entry,
                        candidates := dictRemove mm1.candidates relpath }
  return (true, mm2, fs1, events2)

/-! ### C2: scenario S3 (over-bound admission) -/

/-- Entry A: size 60, added at t1 = 10 (oldest). -/
def entryA : CacheEntry :=
  { fpath := "/cache/files/http/h/a.bin", size := 60, added_on := 10,
    last_checked_on := 10, last_used_on := 10, nb_used := 1, kind := "file",
    source := "http://h/a.bin", digest := "da" }

/-- Entry B: size 50, added at t2 = 20. -/
def entryB : CacheEntry :=
  { fpath := "/cache/files/http/h/b.bin", size := 50, added_on := 20,
    last_checked_on := 20, last_used_on := 20, nb_used := 1, kind := "file",
    source := "http://h/b.bin", digest := "db" }

/-- Candidate C: size 40, added at t3 = 30 (the run's reference instant);
its path is still cache-relative. -/
def candC : CacheEntry :=
  { fpath := "files/http/h/c.bin", size := 40, added_on := 30,
    last_checked_on := 30, last_used_on := 30, nb_used := 0, kind := "file",
    source := "http://h/c.bin", digest := "dc" }

/-- The S3 policy: `max_size = 100`, eviction `oldest`, default empty
subpolicies. -/
def s3Policy : MainPolicy :=
  { enabled := true, max_size := some 100, max_age := none, max_num := none,
    eviction := .oldest, oci_images := some emptySub, files := some emptySub }

/-- The S3 manager state right before `apply_candidates`. -/
def s3Manager : CacheManager :=
  { root := "/cache", ref_date := 30, policy := s3Policy,
    entries := [("files/http/h/a.bin", entryA), ("files/http/h/b.bin", entryB)],
    discovered := true, applied := true,
    candidates := [("files/http/h/c.bin", candC)], considered := false }

/-- The S3 on-disk state: A and B exist, nothing abnormal. -/
def s3FS : FS :=
  { files := ["/cache/files/http/h/a.bin", "/cache/files/http/h/b.bin"],
    fail_unlink := fun _ => false }

/-- Whether an `apply_candidates` result is a normal (non-raising) one. -/
def applyCandidatesIsOk : Except PyErr (CacheManager × FS) → Bool
  | .ok _ => true
  | .error _ => false

/-- C2 counterexample: on the S3 input, `apply_candidates` does not
terminate normally at all — so it cannot evict A, keep B and admit C as
the claim states. -/
theorem apply_candidates_s3_does_not_complete :
    applyCandidatesIsOk (s3Manager.apply_candidates s3FS 30) = false := by
  rfl

/-- C2 (amended): on the S3 input, `apply_candidates` raises
`AttributeError` — the manager wrapper feeds the (empty) image subset to
the `oci_images` subpolicy and the engine's final
`if policy.keep_identified_versions:` reads a field no policy class
defines — before any eviction or admission decision is made. -/
theorem apply_candidates_s3_raises :
    s3Manager.apply_candidates s3FS 30 =
      .error (.attributeError "keep_identified_versions") := by
  rfl

/-! ### C10: `add_candidate` on an enabled, not-yet-applied manager -/

/-- A manager with the default (enabled) policy whose baseline eviction
has not been applied yet and which holds no entries or candidates. -/
def c10Manager : CacheManager :=
  { root := "/cache", ref_date := 100, policy := defaultsMainPolicy,
    entries := [], discovered := true, applied := false, candidates := [],
    considered := false }

/-- An item to register. -/
def c10Item : Item :=
  { kind := "file", source := "http://h/x.bin", size := 5,
    relpath := "files/http/h/x.bin" }

/-- An empty healthy filesystem. -/
def emptyFS : FS := { files := [], fail_unlink := fun _ => false }

/-- C10: `add_candidate` on an enabled policy with `applied = False`
calls `apply()` first — but `apply()` runs the eviction engine, which
raises `AttributeError` on the missing `keep_identified_versions` policy
field, so the exception propagates out of `add_candidate`: no candidate
is registered and the `applied` flag is never set. -/
theorem add_candidate_raises_attribute_error :
    c10Manager.add_candidate emptyFS c10Item 100 (.ok "digest") =
      .error (.attributeError "keep_identified_versions") := by
  rfl

/-! ### C4: `introduce` -/

theorem dictContains_exists_find (d : List (String × CacheEntry)) (k : String)
    (h : dictContains d k = true) :
    ∃ v, dictFind? d k = some v ∧ (k, v) ∈ d := by
  induction d with
  | nil => simp [dictContains] at h
  | cons kv t ih =>
    obtain ⟨a, b⟩ := kv
    by_cases hk : a = k
    · subst hk
      refine ⟨b, ?_, by simp⟩
      simp [dictFind?]
    · have hne : ((a, b).1 == k) = false := by simpa using hk
      have ht : dictContains t k = true := by
        rw [dictContains, List.any_cons, hne] at h
        simpa [dictContains] using h
      obtain ⟨v, hf, hm⟩ := ih ht
      refine ⟨v, ?_, List.mem_cons_of_mem _ hm⟩
      rw [dictFind?] at hf
      simpa [dictFind?, hne] using hf

theorem dictInsert_keys_of_contains (d : List (String × CacheEntry)) (k : String)
    (v : CacheEntry) (h : dictContains d k = true) :
    (dictInsert d k v).map Prod.fst = d.map Prod.fst := by
  unfold dictInsert
  rw [if_pos (by simpa [dictContains] using h), List.map_map]
  refine List.map_congr_left ?_
  intro kv _
  by_cases hk : kv.1 = k <;> simp [hk]

theorem dictContains_insert_self (d : List (String × CacheEntry)) (k : String)
    (v : CacheEntry) : dictContains (dictInsert d k v) k = true := by
  unfold dictInsert dictContains
  by_cases h : d.any (fun kv => kv.1 == k)
  · rw [if_pos h, List.any_map]
    rw [List.any_eq_true] at h ⊢
    obtain ⟨kv, hm, hk⟩ := h
    exact ⟨kv, hm, by simp [Function.comp, hk]⟩
  · rw [if_neg h, List.any_append]
    simp

theorem dictContains_remove_self (d : List (String × CacheEntry)) (k : String) :
    dictContains (dictRemove d k) k = false := by
  induction d with
  | nil => rfl
  | cons kv t ih =>
    rw [dictRemove, List.filter_cons]
    by_cases hk : kv.1 == k
    · simp only [hk, Bool.not_true, Bool.false_eq_true, if_false]
      simpa [dictRemove] using ih
    · have hkb : (!(kv.1 == k)) = true := by simp [hk]
      rw [if_pos hkb, dictContains, List.any_cons]
      have hkf : (kv.1 == k) = false := by simpa using hk
      rw [hkf]
      simp [dictRemove, dictContains] at ih
      simp [dictRemove, dictContains, ih]

theorem should_cache_of_considered (m : CacheManager) (fs : FS) (item : Item)
    (now : Int) (hen : m.policy.enabled = true) (hcon : m.considered = true) :
    m.should_cache fs item now =
      .ok (dictContains m.candidates (path_for_item item), m, fs) := by
  unfold CacheManager.should_cache
  simp [hen, hcon]
  rfl

/-- C4: for an item whose candidate survived screening (the manager's
`considered` flag is set and the item's key is in the candidate map, on a
well-formed manager whose candidates carry their key as path), with the
digest fetch succeeding and the copy succeeding:
if the metadata write fails, `introduce` returns false, leaves the
entries dict untouched and the candidate key set unchanged, and attempts
to unlink the partially-copied file `<root>/<CacheKey>`; if the metadata
write succeeds, it returns true, with the item's key present in the
entries map and absent from the candidates map.  The copy always targets
`<root>/<CacheKey>`. -/
theorem introduce_spec (m : CacheManager) (fs : FS) (item : Item)
    (src_path : String) (now : Int) (d : String) (metaOk : Bool)
    (hen : m.policy.enabled = true) (hcon : m.considered = true)
    (hcand : dictContains m.candidates (path_for_item item) = true)
    (hwf : ∀ kv ∈ m.candidates, kv.2.fpath = kv.1) :
    (metaOk = false →
      ∃ mm fsOut events,
        m.introduce fs item src_path now (.ok d) true metaOk =
          .ok (false, mm, fsOut, events) ∧
        mm.entries = m.entries ∧
        mm.candidates.map Prod.fst = m.candidates.map Prod.fst ∧
        FsEvent.copied src_path (m.root ++ "/" ++ path_for_item item) ∈ events ∧
        FsEvent.unlinked (m.root ++ "/" ++ path_for_item item) ∈ events) ∧
    (metaOk = true →
      ∃ mm fsOut events,
        m.introduce fs item src_path now (.ok d) true metaOk =
          .ok (true, mm, fsOut, events) ∧
        dictContains mm.entries (path_for_item item) = true ∧
        dictContains mm.candidates (path_for_item item) = false ∧
        FsEvent.copied src_path (m.root ++ "/" ++ path_for_item item) ∈ events) := by
  obtain ⟨e0, hfind, hmem⟩ :=
    dictContains_exists_find m.candidates (path_for_item item) hcand
  have hfp : e0.fpath = path_for_item item := hwf (path_for_item item, e0) hmem
  have hsc := should_cache_of_considered m fs item now hen hcon
  rw [hcand] at hsc
  constructor
  · rintro rfl
    obtain ⟨fsOut, hrun⟩ :
        ∃ fsOut, m.introduce fs item src_path now (.ok d) true false =
          .ok (false, ({ m with candidates := dictInsert m.candidates (path_for_item item) ({ e0 with fpath := m.root ++ "/" ++ e0.fpath } : CacheEntry) } : CacheManager), fsOut, [FsEvent.copied src_path (m.root ++ "/" ++ e0.fpath), FsEvent.unlinked (m.root ++ "/" ++ e0.fpath)]) := by
      unfold CacheManager.introduce
      rw [hsc]
      simp [hfind, Bind.bind, Except.bind, Pure.pure, Except.pure]
    refine ⟨_, fsOut, _, hrun, rfl, dictInsert_keys_of_contains _ _ _ hcand, ?_, ?_⟩
    · simp [hfp]
    · simp [hfp]
  · rintro rfl
    obtain ⟨fsOut, hrun⟩ :
        ∃ fsOut, m.introduce fs item src_path now (.ok d) true true =
          .ok (true, ({ m with entries := dictInsert m.entries (path_for_item item) ({ e0 with fpath := m.root ++ "/" ++ e0.fpath } : CacheEntry), candidates := dictRemove (dictInsert m.candidates (path_for_item item) ({ e0 with fpath := m.root ++ "/" ++ e0.fpath } : CacheEntry)) (path_for_item item) } : CacheManager), fsOut, [FsEvent.copied src_path (m.root ++ "/" ++ e0.fpath), FsEvent.wroteMeta (m.root ++ "/" ++ e0.fpath)]) := by
      unfold CacheManager.introduce
      rw [hsc]
      simp [hfind, Bind.bind, Except.bind, Pure.pure, Except.pure]
    refine ⟨_, fsOut, _, hrun, ?_, ?_, ?_⟩
    · exact dictContains_insert_self _ _ _
    · exact dictContains_remove_self _ _
    · simp [hfp]

/-- A manager state for the C4 witness: screening done, one surviving
candidate. -/
def c4Manager : CacheManager :=
  { root := "/cache", ref_date := 30, policy := defaultsMainPolicy,
    entries := [], discovered := true, applied := true,
    candidates := [("files/http/h/c.bin", candC)], considered := true }

/-- The item whose candidate `candC` is. -/
def c4Item : Item :=
  { kind := "file", source := "http://h/c.bin", size := 40,
    relpath := "files/http/h/c.bin" }

/-- C4 witness: `introduce_spec` applied at the concrete manager, item
and a failing metadata write. -/
theorem introduce_spec_witness :
    ∃ mm fsOut events,
      c4Manager.introduce emptyFS c4Item "/tmp/dl/c.bin" 30 (.ok "dc") true false =
        .ok (false, mm, fsOut, events) ∧
      mm.entries = c4Manager.entries ∧
      mm.candidates.map Prod.fst = c4Manager.candidates.map Prod.fst ∧
      FsEvent.copied "/tmp/dl/c.bin" (c4Manager.root ++ "/" ++ path_for_item c4Item) ∈
        events ∧
      FsEvent.unlinked (c4Manager.root ++ "/" ++ path_for_item c4Item) ∈ events :=
  (introduce_spec c4Manager emptyFS c4Item "/tmp/dl/c.bin" 30 "dc" false
    (by decide) (by decide) (by decide)
    (by
      intro kv hkv
      simp [c4Manager] at hkv
      rw [hkv]
      rfl)).1 rfl

end ImageCreator
